import Mathlib

/-!
Verification of the FairWorkly roster Excel parsing engine
(`agent-service/agents/shared/roster_excel_parser.py`).

The Python module is shallowly embedded below:
* Python `time`/`date` values become the `Time`/`Date` structures
  (`Time` carries the range invariants that the Python `time` constructor
  enforces);
* raw spreadsheet cell values become the `Cell` sum type;
* `Decimal(...).quantize(Decimal("0.01"))` (banker's rounding to two
  decimal places) becomes `quantize2 : ℚ → ℤ`, returning the value in
  hundredths ("cents").  The Python code routes some values through a
  binary `float` before building the `Decimal`; the float detour is
  modelled by exact rational arithmetic.  This is faithful for every value
  the parser produces: the inputs are whole seconds (durations) or whole
  minutes (breaks), whose exact values are never closer than `1/720000`
  (resp. `1/600`) to a two-decimal rounding boundary unless they sit
  exactly on it, while the float detour perturbs them by less than
  `10⁻¹²`, so the quantized result is unchanged;
* fallible coercers return `Except`; the distinct error messages of the
  source are represented by distinct error constructors carrying the
  offending text (the human-readable message strings themselves are not
  re-modelled).
-/

namespace FairWorkly

instance {ε α : Type} [DecidableEq ε] [DecidableEq α] : DecidableEq (Except ε α) := fun x y =>
  match x, y with
  | Except.ok a, Except.ok b =>
      if h : a = b then isTrue (by rw [h]) else isFalse (by intro hc; cases hc; exact h rfl)
  | Except.error a, Except.error b =>
      if h : a = b then isTrue (by rw [h]) else isFalse (by intro hc; cases hc; exact h rfl)
  | Except.ok _, Except.error _ => isFalse (by intro hc; cases hc)
  | Except.error _, Except.ok _ => isFalse (by intro hc; cases hc)

/-! ## Python integer helpers

`Int.ediv`/`Int.emod` match Python's `//` and `%` (floor division,
non-negative remainder for positive modulus).  `ratTrunc` matches Python's
`int(x)` on a real value: truncation toward zero. -/

/-- Python `int(x)`: truncate a rational toward zero. -/
def ratTrunc (q : ℚ) : ℤ :=
  Int.tdiv q.num q.den

/-- Round `n / d` (for `d > 0`) to the nearest integer, ties to the even
integer.  This is the `ROUND_HALF_EVEN` rounding that `Decimal.quantize`
uses by default. -/
def rndHE (n d : ℤ) : ℤ :=
  if 2 * Int.emod n d < d then Int.ediv n d
  else if d < 2 * Int.emod n d then Int.ediv n d + 1
  else if Int.emod (Int.ediv n d) 2 = 0 then Int.ediv n d else Int.ediv n d + 1

/-- Round a rational to the nearest integer, ties to even. -/
def rndHEQ (x : ℚ) : ℤ :=
  rndHE x.num (x.den : ℤ)

/-- `Decimal(x).quantize(Decimal("0.01"))`, with the result returned in
hundredths: `quantize2 x` is `100 *` the quantized decimal value. -/
def quantize2 (x : ℚ) : ℤ :=
  rndHEQ (100 * x)

theorem rndHEQ_intCast (n : ℤ) : rndHEQ (n : ℚ) = n := by
  have h1 : Int.emod n 1 = 0 := Int.emod_one n
  have h2 : Int.ediv n 1 = n := Int.ediv_one n
  simp [rndHEQ, rndHE, Rat.num_intCast, Rat.den_intCast, h1, h2]

theorem rndHE_nonneg {n d : ℤ} (hn : 0 ≤ n) (hd : 0 < d) : 0 ≤ rndHE n d := by
  have hq : 0 ≤ Int.ediv n d := Int.ediv_nonneg hn (le_of_lt hd)
  unfold rndHE
  split
  · exact hq
  · split
    · omega
    · split <;> omega

theorem rndHEQ_nonneg {x : ℚ} (hx : 0 ≤ x) : 0 ≤ rndHEQ x := by
  have hnum : 0 ≤ x.num := Rat.num_nonneg.mpr hx
  have hden : (0 : ℤ) < (x.den : ℤ) := by exact_mod_cast x.pos
  exact rndHE_nonneg hnum hden

theorem rndHE_close {n d : ℤ} (hd : 0 < d) :
    |(rndHE n d : ℚ) - (n : ℚ) / (d : ℚ)| ≤ 1 / 2 := by
  have hdne : d ≠ 0 := ne_of_gt hd
  have hsplit : d * Int.ediv n d + Int.emod n d = n := Int.ediv_add_emod n d
  have hr0 : 0 ≤ Int.emod n d := Int.emod_nonneg n hdne
  have hrd : Int.emod n d < d := Int.emod_lt_of_pos n hd
  set q : ℤ := Int.ediv n d with hqdef
  set r : ℤ := Int.emod n d with hrdef
  have hdQ : (0 : ℚ) < (d : ℚ) := by exact_mod_cast hd
  have hnQ : (n : ℚ) = (d : ℚ) * (q : ℚ) + (r : ℚ) := by exact_mod_cast hsplit.symm
  have hxq : (n : ℚ) / (d : ℚ) - (q : ℚ) = (r : ℚ) / (d : ℚ) := by
    rw [hnQ]; field_simp
  have hrQ0 : (0 : ℚ) ≤ (r : ℚ) := by exact_mod_cast hr0
  have hrQd : (r : ℚ) < (d : ℚ) := by exact_mod_cast hrd
  unfold rndHE
  rw [← hqdef, ← hrdef]
  split
  · rename_i hlt
    have h2r : (2 : ℚ) * (r : ℚ) < (d : ℚ) := by exact_mod_cast hlt
    have hub : (n : ℚ) / (d : ℚ) - (q : ℚ) ≤ 1 / 2 := by
      rw [hxq, div_le_iff₀ hdQ]; linarith
    have hlb : 0 ≤ (n : ℚ) / (d : ℚ) - (q : ℚ) := by
      rw [hxq]; positivity
    rw [abs_le]; constructor <;> linarith
  · split
    · rename_i hlt hgt
      have h2r : (d : ℚ) < 2 * (r : ℚ) := by exact_mod_cast hgt
      have hub : (n : ℚ) / (d : ℚ) - (q : ℚ) < 1 := by
        rw [hxq, div_lt_iff₀ hdQ]; linarith
      have hlb : 1 / 2 ≤ (n : ℚ) / (d : ℚ) - (q : ℚ) := by
        rw [hxq, le_div_iff₀ hdQ]; linarith
      rw [abs_le]; push_cast; constructor <;> linarith
    · rename_i hlt hgt
      have hreq : 2 * r = d := by omega
      have hhalf : (n : ℚ) / (d : ℚ) - (q : ℚ) = 1 / 2 := by
        rw [hxq]
        have hdr : (d : ℚ) = 2 * (r : ℚ) := by exact_mod_cast hreq.symm
        have hrposZ : (0 : ℤ) < r := by omega
        have hrpos : (0 : ℚ) < (r : ℚ) := by exact_mod_cast hrposZ
        rw [hdr]
        field_simp
        ring
      split
      · rw [abs_le]; constructor <;> linarith
      · rw [abs_le]; push_cast; constructor <;> linarith

theorem rndHEQ_close (x : ℚ) : |(rndHEQ x : ℚ) - x| ≤ 1 / 2 := by
  have hd : (0 : ℤ) < (x.den : ℤ) := by exact_mod_cast x.pos
  have h := @rndHE_close x.num (x.den : ℤ) hd
  have hc : (((x.den : ℤ) : ℚ)) = ((x.den : ℚ)) := by norm_cast
  rw [hc, Rat.num_div_den] at h
  exact h

/-! ## Character classes

Header strings are modelled as lists of Unicode code points (`List Nat`).
`wsCodes` models the code points matched by Python's `\s` / `str.strip()`
for text strings; `noiseCodes` is the character class of the source's
noise-stripping regex `[*#\-_.:：]` (`0xFF1A` is the full-width colon). -/

def wsCodes : List Nat :=
  [9, 10, 11, 12, 13, 28, 29, 30, 31, 32, 0x85, 0xA0, 0x1680,
   0x2000, 0x2001, 0x2002, 0x2003, 0x2004, 0x2005, 0x2006, 0x2007,
   0x2008, 0x2009, 0x200A, 0x2028, 0x2029, 0x202F, 0x205F, 0x3000]

def isWsN (c : Nat) : Bool := wsCodes.contains c

def noiseCodes : List Nat := [42, 35, 45, 95, 46, 58, 0xFF1A]

def isNoiseN (c : Nat) : Bool := noiseCodes.contains c

/-- `unicodedata.normalize("NFKC", ·)`, restricted to the aspect the code
relies on: folding the full-width ASCII block `U+FF01–U+FF5E` onto
`U+0021–U+007E` and the ideographic space `U+3000` onto a plain space.
(Full NFKC also performs compatibility decompositions that are identity on
every character the alias table and the header claims involve.) -/
def foldW (c : Nat) : Nat :=
  if 0xFF01 ≤ c ∧ c ≤ 0xFF5E then c - 0xFEE0
  else if c = 0x3000 then 32 else c

/-- `str.lower()` on the post-NFKC character domain (ASCII letters; CJK
characters have no case). -/
def lowerN (c : Nat) : Nat :=
  if 65 ≤ c ∧ c ≤ 90 then c + 32 else c

/-- One noise character replaced by a space: `re.sub(r"[*#\-_.:：]", " ", ·)`
acts pointwise. -/
def noiseSp (c : Nat) : Nat :=
  if isNoiseN c then 32 else c

/-- `re.sub(r"\s+", " ", ·)`: every maximal run of whitespace becomes a
single space.  The boolean accumulator records whether the previous
character belonged to a whitespace run. -/
def collapseAux : Bool → List Nat → List Nat
  | _, [] => []
  | prevWs, c :: cs =>
      if isWsN c then
        if prevWs then collapseAux true cs else 32 :: collapseAux true cs
      else c :: collapseAux false cs

def collapseWs (l : List Nat) : List Nat := collapseAux false l

/-- `str.strip()` on code-point lists. -/
def trimWsN (l : List Nat) : List Nat :=
  ((l.dropWhile isWsN).reverse.dropWhile isWsN).reverse

def strCodes (s : String) : List Nat := s.data.map Char.toNat

/-- `RosterExcelParser._normalize_header`, on code-point lists: NFKC fold,
lowercase, collapse whitespace, noise characters to spaces, collapse
whitespace again, strip. -/
def normalizeHeaderL (l : List Nat) : List Nat :=
  if l = [] then []
  else trimWsN (collapseWs ((collapseWs ((l.map foldW).map lowerN)).map noiseSp))

def normalize_header (s : String) : List Nat :=
  normalizeHeaderL (strCodes s)

/-! ## Header alias table and resolver -/

/-- `RosterExcelParser.HEADER_ALIASES`, verbatim from the source. -/
def HEADER_ALIASES : List (String × List String) :=
  [("employee_email", ["employee email", "employee_email", "员工邮箱", "staff email", "worker email"]),
   ("employee_number", ["employee number", "employee_number", "emp number", "emp_number", "employee id", "employee_id", "员工编号", "staff number"]),
   ("employee_name", ["employee name", "employee_name", "员工姓名", "staff name", "worker name"]),
   ("date", ["date", "shift date", "shift_date", "日期"]),
   ("start_time", ["start time", "start_time", "start", "开始时间"]),
   ("end_time", ["end time", "end_time", "end", "finish time", "finish_time", "结束时间"]),
   ("has_meal_break", ["has meal break", "has_meal_break", "meal break", "meal_break"]),
   ("meal_break_duration", ["meal break duration", "meal_break_duration", "meal break mins", "meal_break_mins"]),
   ("has_rest_breaks", ["has rest breaks", "has_rest_breaks", "rest breaks", "rest_breaks"]),
   ("rest_breaks_duration", ["rest breaks duration", "rest_breaks_duration", "rest break mins", "rest_break_mins"]),
   ("is_public_holiday", ["is public holiday", "is_public_holiday", "public holiday", "public_holiday"]),
   ("public_holiday_name", ["public holiday name", "public_holiday_name", "holiday name", "holiday_name"]),
   ("is_on_call", ["is on call", "is_on_call", "on call", "on_call"]),
   ("location", ["location", "work location", "work_location", "地点"]),
   ("notes", ["notes", "note", "comments", "comment", "备注"]),
   ("name", ["name", "姓名", "full name"]),
   ("email", ["email", "e-mail", "邮箱", "mail"]),
   ("role", ["role", "position", "title", "职位", "job title"]),
   ("department", ["department", "dept", "部门"]),
   ("start_date", ["start date", "start_date", "hire date", "hire_date", "入职日期"])]

/-- The reverse lookup built in `__init__`: normalized alias → canonical
key, in table order (a Python `dict`, so a later assignment to the same
normalized alias wins). -/
def aliasPairs : List (List Nat × String) :=
  HEADER_ALIASES.foldl
    (fun acc p => acc ++ p.2.map (fun a => (normalize_header a, p.1))) []

/-- Association-list lookup with Python-`dict` semantics: the latest
assignment to a key wins. -/
def lastAssoc {β : Type} (l : List (List Nat × β)) (k : List Nat) : Option β :=
  match l with
  | [] => Option.none
  | p :: rest =>
      match lastAssoc rest k with
      | some r => some r
      | Option.none => if p.1 = k then some p.2 else Option.none

def aliasLookup (k : List Nat) : Option String := lastAssoc aliasPairs k

/-- `_normalize_headers` applied to one raw header: the canonical key when
the normalized header is a known alias, otherwise the normalized header
itself (canonical keys are compared via their code points). -/
def resolveKey (s : String) : List Nat :=
  match aliasLookup (normalize_header s) with
  | some canonical => strCodes canonical
  | Option.none => normalize_header s

/-! ## Data model -/

/-- Python `datetime.time` (second precision): the constructor's range
checks become `Fin` bounds. -/
structure Time where
  hour : Fin 24
  minute : Fin 60
  second : Fin 60
deriving DecidableEq, Repr

def Time.toSecs (t : Time) : Nat :=
  t.hour.val * 3600 + t.minute.val * 60 + t.second.val

/-- Python `time` comparison is lexicographic on (hour, minute, second),
which agrees with comparing seconds-since-midnight within the ranges the
constructor enforces. -/
def Time.ltB (a b : Time) : Bool :=
  a.toSecs < b.toSecs

/-- Convenience constructor for literals (arguments taken mod the range). -/
def mkTime (h m s : Nat) : Time :=
  ⟨⟨h % 24, Nat.mod_lt _ (by decide)⟩, ⟨m % 60, Nat.mod_lt _ (by decide)⟩,
   ⟨s % 60, Nat.mod_lt _ (by decide)⟩⟩

/-- Python `datetime.date` (the parser's own validation guarantees ranges,
so no invariants are carried here). -/
structure Date where
  year : Nat
  month : Nat
  day : Nat
deriving DecidableEq, Repr

/-- A raw spreadsheet cell value, as produced by the external reader: the
closed variant of Python values the coercers inspect with `isinstance`.
`int` and `num` are separate because Python distinguishes `int` from
`float` cells (only their `str()` rendering differs in this module);
Python `bool` is kept separate even though it is an `int` subclass — each
coercer below handles it exactly as the `isinstance` chains of the source
do. -/
inductive Cell where
  | null : Cell
  | str (s : String) : Cell
  | int (n : ℤ) : Cell
  | num (q : ℚ) : Cell
  | bool (b : Bool) : Cell
  | date (d : Date) : Cell
  | datetime (d : Date) (t : Time) : Cell
  | time (t : Time) : Cell
deriving DecidableEq, Repr

/-! ## Python string helpers -/

def isPySpace (c : Char) : Bool := isWsN c.toNat

/-- `str.strip()`. -/
def pyStrip (s : String) : String :=
  String.mk (((s.data.dropWhile isPySpace).reverse.dropWhile isPySpace).reverse)

/-- `str.upper()` on the ASCII range (the characters this module feeds it). -/
def asciiUpper (c : Char) : Char :=
  if 97 ≤ c.toNat ∧ c.toNat ≤ 122 then Char.ofNat (c.toNat - 32) else c

def pyUpper (s : String) : String := String.mk (s.data.map asciiUpper)

/-- `str.lower()` on the ASCII range. -/
def asciiLower (c : Char) : Char :=
  if 65 ≤ c.toNat ∧ c.toNat ≤ 90 then Char.ofNat (c.toNat + 32) else c

def pyLower (s : String) : String := String.mk (s.data.map asciiLower)

/-- Fuel-driven body of `removeSub` (structural recursion on the fuel so
that the definition reduces; the fuel starts at the list length, which the
recursion never exhausts since every step consumes at least one
character). -/
def removeSubFuel (pat : List Char) : Nat → List Char → List Char
  | 0, l => l
  | _ + 1, [] => []
  | fuel + 1, c :: cs =>
      if pat ≠ [] ∧ pat.isPrefixOf (c :: cs) then
        removeSubFuel pat fuel (List.drop (pat.length - 1) cs)
      else c :: removeSubFuel pat fuel cs

/-- `str.replace(pat, "")`: delete every left-to-right, non-overlapping
occurrence of `pat`. -/
def removeSub (pat : List Char) (l : List Char) : List Char :=
  removeSubFuel pat l.length l

/-- `pat in s` for plain substring containment. -/
def containsSub (pat : List Char) : List Char → Bool
  | [] => pat = []
  | c :: cs => pat.isPrefixOf (c :: cs) || containsSub pat cs

def digitVal (c : Char) : Nat := c.toNat - 48

def allDigits (l : List Char) : Bool := l ≠ [] && l.all Char.isDigit

def digitsToNat (l : List Char) : Nat :=
  l.foldl (fun a c => a * 10 + digitVal c) 0

/-- Split a character list on a separator character (like
`str.split(sep)` for a single-character separator: empty fields are
kept). -/
def splitOnC (sep : Char) (l : List Char) : List (List Char) :=
  l.foldr
    (fun c acc =>
      if c = sep then [] :: acc
      else
        match acc with
        | a :: rest => (c :: a) :: rest
        | [] => [[c]])
    [[]]

/-! ## Cell stringification (`_get_string`, Python `str(value)`)

`str()` of non-integral floats is approximated by an exact decimal
expansion truncated to 17 fractional digits (CPython prints the shortest
round-tripping decimal); no verified claim depends on this rendering. -/

def pad2 (n : Nat) : String :=
  if n < 10 then "0" ++ toString n else toString n

def pad4 (n : Nat) : String :=
  if n < 10 then "000" ++ toString n
  else if n < 100 then "00" ++ toString n
  else if n < 1000 then "0" ++ toString n
  else toString n

def dateRepr (d : Date) : String :=
  pad4 d.year ++ "-" ++ pad2 d.month ++ "-" ++ pad2 d.day

def timeRepr (t : Time) : String :=
  pad2 t.hour.val ++ ":" ++ pad2 t.minute.val ++ ":" ++ pad2 t.second.val

def fracDigits : Nat → Nat → Nat → String
  | 0, _, _ => ""
  | _, 0, _ => ""
  | fuel + 1, num, den =>
      let num' := num * 10
      toString (num' / den) ++ fracDigits fuel (num' % den) den

def ratRepr (q : ℚ) : String :=
  if q.den = 1 then toString q.num ++ ".0"
  else
    (if q.num < 0 then "-" else "") ++ toString (q.num.natAbs / q.den) ++ "." ++
      fracDigits 17 (q.num.natAbs % q.den) q.den

/-- Python `str(value)` for the cell variants. -/
def cellStr : Cell → String
  | Cell.null => "None"
  | Cell.str s => s
  | Cell.int n => toString n
  | Cell.num q => ratRepr q
  | Cell.bool b => if b then "True" else "False"
  | Cell.date d => dateRepr d
  | Cell.datetime d t => dateRepr d ++ " " ++ timeRepr t
  | Cell.time t => timeRepr t

/-- `RosterExcelParser._get_string`: `None` stays absent, anything else is
stringified and stripped, and an empty result collapses to absent. -/
def get_string : Cell → Option String
  | Cell.null => Option.none
  | c =>
      let r := pyStrip (cellStr c)
      if r = "" then Option.none else some r

/-! ## Boolean coercion (`_parse_boolean`) -/

/-- `RosterExcelParser._parse_boolean`: native booleans pass through,
numbers coerce by truthiness, text matches a fixed affirmative set,
everything else (including absent) is `false`. -/
def parse_boolean : Cell → Bool
  | Cell.null => false
  | Cell.bool b => b
  | Cell.int n => n ≠ 0
  | Cell.num q => q ≠ 0
  | Cell.str s => ["true", "yes", "y", "1", "on"].contains (pyLower (pyStrip s))
  | _ => false

/-! ## Integer coercion (`_parse_int`) and Python `float(str)`

Python's `float(text)` accepts optional sign, decimal/scientific literals,
and the case-insensitive words `inf`/`infinity`/`nan`.  (Underscore digit
separators and literal-overflow-to-infinity are not modelled; no claim
depends on them.)  `int(float(text))` raises `ValueError` on NaN — which
`_parse_int` catches — but `OverflowError` on an infinity, which it does
not. -/

inductive PyFloat where
  | finite (q : ℚ)
  | inf
  | neginf
  | nan
deriving DecidableEq, Repr

def parseSignedExp (l : List Char) : Option ℤ :=
  match l with
  | '+' :: r => if allDigits r then some (digitsToNat r : ℤ) else Option.none
  | '-' :: r => if allDigits r then some (-(digitsToNat r : ℤ)) else Option.none
  | r => if allDigits r then some (digitsToNat r : ℤ) else Option.none

def parseMantissa (l : List Char) : Option ℚ :=
  let ipart := l.takeWhile (fun c => c ≠ '.')
  let rest := l.dropWhile (fun c => c ≠ '.')
  match rest with
  | [] =>
      if allDigits ipart then some ((digitsToNat ipart : ℚ)) else Option.none
  | _ :: fpart =>
      if ipart.all Char.isDigit ∧ fpart.all Char.isDigit ∧ (ipart ≠ [] ∨ fpart ≠ []) then
        some ((digitsToNat ipart : ℚ) + (digitsToNat fpart : ℚ) / (10 : ℚ) ^ fpart.length)
      else Option.none

def parseUnsignedFloat (l : List Char) : Option ℚ :=
  let mant := l.takeWhile (fun c => c ≠ 'e' ∧ c ≠ 'E')
  let rest := l.dropWhile (fun c => c ≠ 'e' ∧ c ≠ 'E')
  match rest with
  | [] => parseMantissa mant
  | _ :: expPart =>
      (parseMantissa mant).bind fun m =>
        (parseSignedExp expPart).map fun e => m * (10 : ℚ) ^ e

def pyFloatOfChars (l : List Char) : Option PyFloat :=
  let (neg, rest) :=
    match l with
    | '+' :: r => (false, r)
    | '-' :: r => (true, r)
    | r => (false, r)
  let low := rest.map asciiLower
  if low = "inf".data ∨ low = "infinity".data then
    some (if neg then PyFloat.neginf else PyFloat.inf)
  else if low = "nan".data then some PyFloat.nan
  else
    match parseUnsignedFloat rest with
    | some q => some (PyFloat.finite (if neg then -q else q))
    | Option.none => Option.none

def pyFloatParse (s : String) : Option PyFloat :=
  pyFloatOfChars (pyStrip s).data

/-- `RosterExcelParser._parse_int`.  The `Except` error marks the one code
path on which the Python function raises instead of returning: text whose
`float(...)` is an infinity makes `int(float(value))` raise
`OverflowError`, which the surrounding `except ValueError` does not
catch. -/
def parse_int : Cell → Except Unit (Option ℤ)
  | Cell.null => Except.ok Option.none
  | Cell.int n => Except.ok (some n)
  | Cell.bool b => Except.ok (some (if b then 1 else 0))
  | Cell.num q => Except.ok (some (ratTrunc q))
  | Cell.str s =>
      let v := pyStrip s
      if v = "" then Except.ok Option.none
      else
        match pyFloatParse v with
        | some (PyFloat.finite q) => Except.ok (some (ratTrunc q))
        | some PyFloat.nan => Except.ok Option.none
        | some PyFloat.inf => Except.error ()
        | some PyFloat.neginf => Except.error ()
        | Option.none => Except.ok Option.none
  | _ => Except.ok Option.none

/-! ## Date coercion (`_parse_date`)

Each `datetime.strptime` pattern of the source becomes a field-wise
matcher: `%Y` is exactly four digits, `%m`/`%d` are one or two digits in
range (this is the regex `_strptime` compiles), and the resulting triple
must be a real calendar date with year ≥ 1, as the `datetime` constructor
enforces. -/

inductive DateErr where
  | unparseable (s : String)
  | invalidType
deriving DecidableEq, Repr

def fieldYear (l : List Char) : Option Nat :=
  if l.length = 4 ∧ l.all Char.isDigit then some (digitsToNat l) else Option.none

def fieldMonth (l : List Char) : Option Nat :=
  if (l.length = 1 ∨ l.length = 2) ∧ l.all Char.isDigit
      ∧ 1 ≤ digitsToNat l ∧ digitsToNat l ≤ 12 then
    some (digitsToNat l)
  else Option.none

def fieldDay (l : List Char) : Option Nat :=
  if (l.length = 1 ∨ l.length = 2) ∧ l.all Char.isDigit
      ∧ 1 ≤ digitsToNat l ∧ digitsToNat l ≤ 31 then
    some (digitsToNat l)
  else Option.none

def isLeapYear (y : Nat) : Bool :=
  y % 4 = 0 ∧ (y % 100 ≠ 0 ∨ y % 400 = 0)

def daysInMonth (y m : Nat) : Nat :=
  if m = 2 then (if isLeapYear y then 29 else 28)
  else if m = 4 ∨ m = 6 ∨ m = 9 ∨ m = 11 then 30
  else 31

def mkValidDate (y m d : Nat) : Option Date :=
  if 1 ≤ y ∧ d ≤ daysInMonth y m then some ⟨y, m, d⟩ else Option.none

inductive DOrder where
  | ymd
  | dmy
  | mdy
deriving DecidableEq, Repr

def dateFmt (ord : DOrder) (sep : Char) (l : List Char) : Option Date :=
  match splitOnC sep l with
  | [a, b, c] =>
      match ord with
      | DOrder.ymd =>
          (fieldYear a).bind fun y => (fieldMonth b).bind fun m =>
            (fieldDay c).bind fun d => mkValidDate y m d
      | DOrder.dmy =>
          (fieldDay a).bind fun d => (fieldMonth b).bind fun m =>
            (fieldYear c).bind fun y => mkValidDate y m d
      | DOrder.mdy =>
          (fieldMonth a).bind fun m => (fieldDay b).bind fun d =>
            (fieldYear c).bind fun y => mkValidDate y m d
  | _ => Option.none

/-- The source's format list, in order: `%Y-%m-%d`, `%d/%m/%Y`, `%m/%d/%Y`,
`%d-%m-%Y`, `%Y/%m/%d`, `%d.%m.%Y`. -/
def dateFormats : List (List Char → Option Date) :=
  [dateFmt DOrder.ymd '-', dateFmt DOrder.dmy '/', dateFmt DOrder.mdy '/',
   dateFmt DOrder.dmy '-', dateFmt DOrder.ymd '/', dateFmt DOrder.dmy '.']

/-- The `for fmt in formats: try ... except: continue` loop: first
successful format wins. -/
def tryDateFormats (l : List Char) : Option Date :=
  dateFormats.findSome? (fun f => f l)

/-- `RosterExcelParser._parse_date`. -/
def parse_date : Cell → Except DateErr (Option Date)
  | Cell.null => Except.ok Option.none
  | Cell.datetime d _ => Except.ok (some d)
  | Cell.date d => Except.ok (some d)
  | Cell.str s =>
      let v := pyStrip s
      if v = "" then Except.ok Option.none
      else
        match tryDateFormats v.data with
        | some d => Except.ok (some d)
        | Option.none => Except.error (DateErr.unparseable v)
  | _ => Except.error DateErr.invalidType

/-! ## Time coercion (`_parse_time`)

The range-detection regex
`r"\d{1,2}[:\d]*\s*[-~～–—to]+\s*\d{1,2}"` (searched with `re.IGNORECASE`,
so the letters `t`/`o` also match `T`/`O`) is modelled by a deterministic
scanner.  The scanner is exact for match-existence: the regex's character
classes — digits, `[:\d]`, whitespace, and the joiner class — are pairwise
disjoint where consecutive, so maximal-munch scanning finds a match
starting at a position exactly when the backtracking regex does, and
`re.search` tries every start position. -/

inductive TimeErr where
  | rangeDetected (s : String)
  | unparseable (s : String)
  | invalidType
deriving DecidableEq, Repr

def isJoinChar (c : Char) : Bool :=
  c = '-' ∨ c = '~' ∨ c = '～' ∨ c = '–' ∨ c = '—' ∨
    c = 't' ∨ c = 'o' ∨ c = 'T' ∨ c = 'O'

def isColD (c : Char) : Bool := c = ':' ∨ c.isDigit

/-- A regex match starting at the head of the list. -/
def matchRangeAt (l : List Char) : Bool :=
  match l with
  | [] => false
  | c :: rest =>
      c.isDigit &&
        (let l1 := (rest.dropWhile isColD).dropWhile isPySpace
         (l1.takeWhile isJoinChar ≠ ([] : List Char)) &&
           (match (l1.dropWhile isJoinChar).dropWhile isPySpace with
            | d :: _ => d.isDigit
            | [] => false))

/-- `re.search`: a match may start at any position. -/
def rangeSearch : List Char → Bool
  | [] => false
  | c :: rest => matchRangeAt (c :: rest) || rangeSearch rest

/-- The Python `time(h, m, s)` constructor: `None` marks the `ValueError`
it raises out of range (callers below only reach it in range). -/
def pyTime (h m s : Nat) : Option Time :=
  if hh : h < 24 then
    if hm : m < 60 then
      if hs : s < 60 then some ⟨⟨h, hh⟩, ⟨m, hm⟩, ⟨s, hs⟩⟩
      else Option.none
    else Option.none
  else Option.none

def fieldH (l : List Char) : Option Nat :=
  if (l.length = 1 ∨ l.length = 2) ∧ l.all Char.isDigit ∧ digitsToNat l ≤ 23 then
    some (digitsToNat l)
  else Option.none

def fieldMS (l : List Char) : Option Nat :=
  if (l.length = 1 ∨ l.length = 2) ∧ l.all Char.isDigit ∧ digitsToNat l ≤ 59 then
    some (digitsToNat l)
  else Option.none

def fieldI (l : List Char) : Option Nat :=
  if (l.length = 1 ∨ l.length = 2) ∧ l.all Char.isDigit
      ∧ 1 ≤ digitsToNat l ∧ digitsToNat l ≤ 12 then
    some (digitsToNat l)
  else Option.none

def timeFmtHMS (l : List Char) : Option Time :=
  match splitOnC ':' l with
  | [a, b, c] =>
      (fieldH a).bind fun h => (fieldMS b).bind fun m =>
        (fieldMS c).bind fun s => pyTime h m s
  | _ => Option.none

def timeFmtHM (l : List Char) : Option Time :=
  match splitOnC ':' l with
  | [a, b] =>
      (fieldH a).bind fun h => (fieldMS b).bind fun m => pyTime h m 0
  | _ => Option.none

def timeFmtIMS (l : List Char) : Option Time :=
  match splitOnC ':' l with
  | [a, b, c] =>
      (fieldI a).bind fun h => (fieldMS b).bind fun m =>
        (fieldMS c).bind fun s => pyTime h m s
  | _ => Option.none

def timeFmtIM (l : List Char) : Option Time :=
  match splitOnC ':' l with
  | [a, b] =>
      (fieldI a).bind fun h => (fieldMS b).bind fun m => pyTime h m 0
  | _ => Option.none

/-- The source's time format list, in order: `%H:%M:%S`, `%H:%M`,
`%I:%M:%S`, `%I:%M`. -/
def timeFormats : List (List Char → Option Time) :=
  [timeFmtHMS, timeFmtHM, timeFmtIMS, timeFmtIM]

/-- The AM/PM adjustment applied after a successful format match (and, for
the bare-hour branch, before the range check on the hour). -/
def adjustPM (t : Time) (is_pm is_am : Bool) : Time :=
  if h : is_pm ∧ t.hour.val < 12 then
    ⟨⟨t.hour.val + 12, by omega⟩, t.minute, t.second⟩
  else if is_am ∧ t.hour.val = 12 then
    ⟨⟨0, by omega⟩, t.minute, t.second⟩
  else t

def tryTimeFormats (v : String) (is_pm is_am : Bool) : Except TimeErr (Option Time) :=
  match timeFormats.findSome? (fun f => f v.data) with
  | some t => Except.ok (some (adjustPM t is_pm is_am))
  | Option.none => Except.error (TimeErr.unparseable v)

/-- The text branch of `_parse_time`: strip; empty means absent; a
detected time range raises the dedicated error; otherwise uppercase, pull
out AM/PM markers, handle a bare integer hour, then try the fixed format
list. -/
def parse_time_str (s : String) : Except TimeErr (Option Time) :=
  let vs := pyStrip s
  if vs = "" then Except.ok Option.none
  else if rangeSearch vs.data then Except.error (TimeErr.rangeDetected vs)
  else
    let up := pyUpper vs
    let is_pm := containsSub "PM".data up.data
    let is_am := containsSub "AM".data up.data
    let v := pyStrip (String.mk (removeSub "PM".data (removeSub "AM".data up.data)))
    if allDigits v.data then
      let hour0 := digitsToNat v.data
      let hour :=
        if is_pm ∧ hour0 < 12 then hour0 + 12
        else if is_am ∧ hour0 = 12 then 0
        else hour0
      if hour ≤ 23 then Except.ok (pyTime hour 0 0)
      else tryTimeFormats v is_pm is_am
    else tryTimeFormats v is_pm is_am

/-- The numeric branch of `_parse_time`: an Excel fraction-of-day.
`int(value * 86400)` truncates toward zero; hour, minute and second are
then extracted with Python's floor `//` and `%`. -/
def excelFracTime (q : ℚ) : Time :=
  let ts := ratTrunc (q * 86400)
  ⟨⟨(Int.emod (Int.ediv ts 3600) 24).toNat, by
      have h1 : 0 ≤ Int.emod (Int.ediv ts 3600) 24 := Int.emod_nonneg _ (by omega)
      have h2 : Int.emod (Int.ediv ts 3600) 24 < 24 := Int.emod_lt_of_pos _ (by omega)
      omega⟩,
   ⟨(Int.ediv (Int.emod ts 3600) 60).toNat, by
      have h1 : 0 ≤ Int.emod ts 3600 := Int.emod_nonneg _ (by omega)
      have h2 : Int.emod ts 3600 < 3600 := Int.emod_lt_of_pos _ (by omega)
      have h3 : 0 ≤ Int.ediv (Int.emod ts 3600) 60 := Int.ediv_nonneg h1 (by norm_num)
      have h4 : Int.ediv (Int.emod ts 3600) 60 ≤ Int.ediv 3599 60 :=
        Int.ediv_le_ediv (by norm_num) (by omega)
      have h5 : Int.ediv 3599 60 = 59 := by decide
      omega⟩,
   ⟨(Int.emod ts 60).toNat, by
      have h1 : 0 ≤ Int.emod ts 60 := Int.emod_nonneg _ (by omega)
      have h2 : Int.emod ts 60 < 60 := Int.emod_lt_of_pos _ (by omega)
      omega⟩⟩

/-- `RosterExcelParser._parse_time`.  Python `bool` is an `int`, so a
boolean cell takes the numeric branch; a `date` cell is unhandled and
raises the type error. -/
def parse_time : Cell → Except TimeErr (Option Time)
  | Cell.null => Except.ok Option.none
  | Cell.time t => Except.ok (some t)
  | Cell.datetime _ t => Except.ok (some t)
  | Cell.int n => Except.ok (some (excelFracTime (n : ℚ)))
  | Cell.num q => Except.ok (some (excelFracTime q))
  | Cell.bool b => Except.ok (some (excelFracTime (if b then 1 else 0)))
  | Cell.str s => parse_time_str s
  | Cell.date _ => Except.error TimeErr.invalidType

/-! ## RosterEntry and derived fields -/

/-- `RosterEntry` (pydantic model), with the two `@computed_field`
properties defined below as functions of the stored fields. -/
structure RosterEntry where
  excel_row : Nat
  employee_email : String
  employee_number : Option String
  employee_name : Option String
  date : Date
  start_time : Time
  end_time : Time
  is_overnight : Bool
  has_meal_break : Bool
  meal_break_duration : Option ℤ
  has_rest_breaks : Bool
  rest_breaks_duration : Option ℤ
  is_public_holiday : Bool
  public_holiday_name : Option String
  is_on_call : Bool
  location : Option String
  notes : Option String
deriving DecidableEq, Repr

/-- `end_dt - start_dt` in whole seconds, with one day added to the end
when `is_overnight` (both datetimes are built on the same calendar date,
so the date cancels). -/
def durationSeconds (e : RosterEntry) : ℤ :=
  if e.is_overnight then 86400 - (e.start_time.toSecs : ℤ) + (e.end_time.toSecs : ℤ)
  else (e.end_time.toSecs : ℤ) - (e.start_time.toSecs : ℤ)

/-- `RosterEntry.duration_hours`, in hundredths of an hour:
`Decimal(str(duration.total_seconds() / 3600)).quantize(Decimal("0.01"))`. -/
def durationCents (e : RosterEntry) : ℤ :=
  quantize2 ((durationSeconds e : ℚ) / 3600)

/-- `(meal_break_duration or 0) + (rest_breaks_duration or 0)` (each 0 is
also its own `or 0`). -/
def breakMinutes (e : RosterEntry) : ℤ :=
  e.meal_break_duration.getD 0 + e.rest_breaks_duration.getD 0

/-- `RosterEntry.net_hours`, in hundredths of an hour:
`(duration_hours - Decimal(str(total_break_minutes / 60))).quantize(...)`. -/
def netCents (e : RosterEntry) : ℤ :=
  quantize2 ((durationCents e : ℚ) / 100 - (breakMinutes e : ℚ) / 60)

/-! ## Issues, row parser and batch orchestrator -/

inductive Severity where
  | error
  | warning
deriving DecidableEq, Repr

inductive IssueCode where
  | EMPTY_FILE
  | MISSING_REQUIRED_COLUMNS
  | MISSING_REQUIRED_FIELD
  | INVALID_EMAIL
  | INVALID_DATE
  | INVALID_TIME
  | ROW_PARSE_ERROR
  | MEAL_BREAK_DURATION_MISSING
  | REST_BREAKS_DURATION_MISSING
deriving DecidableEq, Repr

/-- `ParseIssue`.  The human-readable `message`/`value` strings are
renderings of the other fields and are not re-modelled. -/
structure ParseIssue where
  severity : Severity
  code : IssueCode
  row : Nat
  column : Option String
deriving DecidableEq, Repr

/-- A row-level failure inside `_parse_roster_row`: either a structured
`ParseIssueError`, or any other exception (here: only the uncaught
`OverflowError` out of `_parse_int`), which the batch loop converts to a
generic `ROW_PARSE_ERROR`. -/
inductive RowErr where
  | issue (i : ParseIssue)
  | generic
deriving DecidableEq, Repr

/-- Modelled from the spec: the pydantic `EmailStr` syntax validator is
external library code, not part of this repository.  The spec only
requires "validated address syntax"; this model accepts one `@` with a
non-empty local part and a dotted, non-empty domain, and no whitespace —
enough for every address the claims exercise. -/
def validEmail (s : String) : Bool :=
  match splitOnC '@' s.data with
  | [local_part, domain] =>
      local_part ≠ ([] : List Char) && domain.contains '.' &&
        domain.head? ≠ some '.' && domain.getLast? ≠ some '.' &&
        !(local_part.any isPySpace) && !(domain.any isPySpace)
  | _ => false

/-- A raw row from the external reader: the real Excel row number (the
`__row__` entry) plus the header→cell mapping. -/
structure RawRow where
  rowNum : Nat
  cells : List (String × Cell)
deriving DecidableEq, Repr

/-- `_normalize_headers`: each raw header is resolved independently; a
later duplicate overwrites an earlier one (Python `dict`). -/
def normalizeRow (cs : List (String × Cell)) : List (List Nat × Cell) :=
  cs.map (fun p => (resolveKey p.1, p.2))

/-- `normalized.get(key)`: the latest binding wins; a missing key reads as
Python `None`. -/
def dictGet (l : List (List Nat × Cell)) (k : String) : Cell :=
  match lastAssoc l (strCodes k) with
  | some c => c
  | Option.none => Cell.null

def ROSTER_REQUIRED_KEYS : List String :=
  ["employee_email", "date", "start_time", "end_time"]

/-- `validate_headers` for the roster keys: the first row's
normalized/aliased keys must cover every required canonical key.  (The
`.lower()` in the source is the identity here: normalized keys are already
lower-case.) -/
def headersValid (data : List RawRow) : Bool :=
  match data with
  | [] => false
  | r :: _ =>
      ROSTER_REQUIRED_KEYS.all
        (fun k => (normalizeRow r.cells).any (fun p => p.1 = strCodes k))

/-- The employee-email block of `_parse_roster_row`: missing →
`MISSING_REQUIRED_FIELD`, present but invalid → `INVALID_EMAIL`. -/
def requireEmail (n : List (List Nat × Cell)) (rowNum : Nat) : Except RowErr String :=
  match get_string (dictGet n "employee_email") with
  | Option.none =>
      Except.error (RowErr.issue
        ⟨Severity.error, IssueCode.MISSING_REQUIRED_FIELD, rowNum, some "employee_email"⟩)
  | some e =>
      if validEmail e then Except.ok e
      else
        Except.error (RowErr.issue
          ⟨Severity.error, IssueCode.INVALID_EMAIL, rowNum, some "employee_email"⟩)

/-- The date block: coercion failure → `INVALID_DATE`, success-but-absent →
`MISSING_REQUIRED_FIELD`. -/
def requireDate (n : List (List Nat × Cell)) (rowNum : Nat) : Except RowErr Date :=
  match parse_date (dictGet n "date") with
  | Except.error _ =>
      Except.error (RowErr.issue
        ⟨Severity.error, IssueCode.INVALID_DATE, rowNum, some "date"⟩)
  | Except.ok Option.none =>
      Except.error (RowErr.issue
        ⟨Severity.error, IssueCode.MISSING_REQUIRED_FIELD, rowNum, some "date"⟩)
  | Except.ok (some d) => Except.ok d

/-- The start-time and end-time blocks: coercion failure → `INVALID_TIME`,
success-but-absent → `MISSING_REQUIRED_FIELD`. -/
def requireTime (n : List (List Nat × Cell)) (key : String) (rowNum : Nat) :
    Except RowErr Time :=
  match parse_time (dictGet n key) with
  | Except.error _ =>
      Except.error (RowErr.issue
        ⟨Severity.error, IssueCode.INVALID_TIME, rowNum, some key⟩)
  | Except.ok Option.none =>
      Except.error (RowErr.issue
        ⟨Severity.error, IssueCode.MISSING_REQUIRED_FIELD, rowNum, some key⟩)
  | Except.ok (some t) => Except.ok t

/-- `_parse_int` on an optional-field cell: a raised `OverflowError` leaves
the row as a generic (non-`ParseIssueError`) exception. -/
def liftInt (c : Cell) : Except RowErr (Option ℤ) :=
  match parse_int c with
  | Except.ok v => Except.ok v
  | Except.error _ => Except.error RowErr.generic

/-- The entry constructed once every required field is in hand (all the
remaining coercions are total). -/
def mkEntry (n : List (List Nat × Cell)) (rowNum : Nat) (emailS : String)
    (dateV : Date) (startT endT : Time) (meal rest : Option ℤ) : RosterEntry :=
  ⟨rowNum, emailS,
   get_string (dictGet n "employee_number"),
   get_string (dictGet n "employee_name"),
   dateV, startT, endT, Time.ltB endT startT,
   parse_boolean (dictGet n "has_meal_break"), meal,
   parse_boolean (dictGet n "has_rest_breaks"), rest,
   parse_boolean (dictGet n "is_public_holiday"),
   get_string (dictGet n "public_holiday_name"),
   parse_boolean (dictGet n "is_on_call"),
   get_string (dictGet n "location"),
   get_string (dictGet n "notes")⟩

/-- The break-flag warnings: a true flag with an absent duration warns. -/
def breakWarnings (n : List (List Nat × Cell)) (rowNum : Nat) (meal rest : Option ℤ) :
    List ParseIssue :=
  (if parse_boolean (dictGet n "has_meal_break") ∧ meal = Option.none then
    [(⟨Severity.warning, IssueCode.MEAL_BREAK_DURATION_MISSING, rowNum,
        some "meal_break_duration"⟩ : ParseIssue)]
  else []) ++
  (if parse_boolean (dictGet n "has_rest_breaks") ∧ rest = Option.none then
    [(⟨Severity.warning, IssueCode.REST_BREAKS_DURATION_MISSING, rowNum,
        some "rest_breaks_duration"⟩ : ParseIssue)]
  else [])

/-- `RosterExcelParser._parse_roster_row`: required fields short-circuit
with one error issue each (email, date, start time, end time, in source
order); then the optional fields are coerced, `is_overnight` is derived as
`end < start`, and break-flag warnings are collected. -/
def parse_roster_row (row : RawRow) : Except RowErr (RosterEntry × List ParseIssue) :=
  let n := normalizeRow row.cells
  requireEmail n row.rowNum >>= fun emailS =>
    requireDate n row.rowNum >>= fun dateV =>
      requireTime n "start_time" row.rowNum >>= fun startT =>
        requireTime n "end_time" row.rowNum >>= fun endT =>
          liftInt (dictGet n "meal_break_duration") >>= fun meal =>
            liftInt (dictGet n "rest_breaks_duration") >>= fun rest =>
              Except.ok (mkEntry n row.rowNum emailS dateV startT endT meal rest,
                breakWarnings n row.rowNum meal rest)

/-- The per-row loop of `parse_roster_excel`: a successful row appends its
entry and warnings, a `ParseIssueError` appends its issue, any other
exception appends a generic `ROW_PARSE_ERROR` for that row. -/
def process_rows : List RawRow → List RosterEntry × List ParseIssue
  | [] => ([], [])
  | r :: rs =>
      let rest := process_rows rs
      match parse_roster_row r with
      | Except.ok (e, ws) => (e :: rest.1, ws ++ rest.2)
      | Except.error (RowErr.issue i) => (rest.1, i :: rest.2)
      | Except.error RowErr.generic =>
          (rest.1, ⟨Severity.error, IssueCode.ROW_PARSE_ERROR, r.rowNum, Option.none⟩ :: rest.2)

/-- `RosterExcelParser.parse_roster_excel`, from the external reader's row
sequence onward (reading the workbook itself is I/O, outside the engine):
empty data and missing required columns are file-level errors; otherwise
every row is processed independently. -/
def parse_roster_excel (data : List RawRow) : List RosterEntry × List ParseIssue :=
  if data.isEmpty then
    ([], [⟨Severity.error, IssueCode.EMPTY_FILE, 0, Option.none⟩])
  else if !headersValid data then
    ([], [⟨Severity.error, IssueCode.MISSING_REQUIRED_COLUMNS, 0, Option.none⟩])
  else process_rows data

/-! ## Auxiliary definitions for the claims -/

/-- The claim-side folding for header insensitivity: width-fold, lowercase
and noise-to-space applied per character, then whitespace runs collapsed.
Two headers "differing only in letter case, whitespace runs, character
width, or noise punctuation" are exactly two headers with the same key. -/
def headerKeyL (l : List Nat) : List Nat :=
  collapseWs (l.map (fun c => noiseSp (lowerN (foldW c))))

def headerKey (s : String) : List Nat := headerKeyL (strCodes s)

/-- Modelled from the spec: the claimed numeric-cell behavior "interprets
it as a fraction of a 24-hour day, floored to whole seconds, with the hour
taken modulo 24" — i.e. `excelFracTime` with a true floor in place of
truncation.  Used to compare the code's behavior with the spec's words. -/
def floorFracTime (q : ℚ) : Time :=
  let ts := ⌊q * 86400⌋
  ⟨⟨(Int.emod (Int.ediv ts 3600) 24).toNat, by
      have h1 : 0 ≤ Int.emod (Int.ediv ts 3600) 24 := Int.emod_nonneg _ (by omega)
      have h2 : Int.emod (Int.ediv ts 3600) 24 < 24 := Int.emod_lt_of_pos _ (by omega)
      omega⟩,
   ⟨(Int.ediv (Int.emod ts 3600) 60).toNat, by
      have h1 : 0 ≤ Int.emod ts 3600 := Int.emod_nonneg _ (by omega)
      have h2 : Int.emod ts 3600 < 3600 := Int.emod_lt_of_pos _ (by omega)
      have h3 : 0 ≤ Int.ediv (Int.emod ts 3600) 60 := Int.ediv_nonneg h1 (by norm_num)
      have h4 : Int.ediv (Int.emod ts 3600) 60 ≤ Int.ediv 3599 60 :=
        Int.ediv_le_ediv (by norm_num) (by omega)
      have h5 : Int.ediv 3599 60 = 59 := by decide
      omega⟩,
   ⟨(Int.emod ts 60).toNat, by
      have h1 : 0 ≤ Int.emod ts 60 := Int.emod_nonneg _ (by omega)
      have h2 : Int.emod ts 60 < 60 := Int.emod_lt_of_pos _ (by omega)
      omega⟩⟩

/-- The accepted entry of a row outcome, if any. -/
def okEntry (r : Except RowErr (RosterEntry × List ParseIssue)) : Option RosterEntry :=
  match r with
  | Except.ok p => some p.1
  | Except.error _ => Option.none

/-! Concrete rows and entries used by witnesses and counterexamples. -/

/-- C1 counterexample input: a one-hour shift with a 120-minute meal
break — every cell is individually valid, and the parser accepts the row
without any issue. -/
def c1row : RawRow :=
  ⟨7, [("Employee Email", Cell.str "dana@example.com"),
       ("Date", Cell.str "2024-01-15"),
       ("Start Time", Cell.str "09:00"),
       ("End Time", Cell.str "10:00"),
       ("Meal Break Duration", Cell.str "120")]⟩

def c1entry : RosterEntry :=
  ⟨7, "dana@example.com", Option.none, Option.none, ⟨2024, 1, 15⟩,
   mkTime 9 0 0, mkTime 10 0 0, false, false, some 120, false, Option.none,
   false, Option.none, false, Option.none, Option.none⟩

/-- C1 witness input: an ordinary shift with a modest break. -/
def c1wrow : RawRow :=
  ⟨3, [("Employee Email", Cell.str "erin@example.com"),
       ("Date", Cell.str "2024-01-15"),
       ("Start Time", Cell.str "09:00"),
       ("End Time", Cell.str "17:00"),
       ("Meal Break Duration", Cell.str "30")]⟩

def c1wentry : RosterEntry :=
  ⟨3, "erin@example.com", Option.none, Option.none, ⟨2024, 1, 15⟩,
   mkTime 9 0 0, mkTime 17 0 0, false, false, some 30, false, Option.none,
   false, Option.none, false, Option.none, Option.none⟩

/-- C2 witness input: an overnight shift 22:00 → 06:00. -/
def c2row : RawRow :=
  ⟨2, [("Employee Email", Cell.str "alice@example.com"),
       ("Date", Cell.str "2024-01-15"),
       ("Start Time", Cell.str "22:00"),
       ("End Time", Cell.str "06:00")]⟩

def c2entry : RosterEntry :=
  ⟨2, "alice@example.com", Option.none, Option.none, ⟨2024, 1, 15⟩,
   mkTime 22 0 0, mkTime 6 0 0, true, false, Option.none, false, Option.none,
   false, Option.none, false, Option.none, Option.none⟩

/-- C7 witness inputs: two valid rows around one row with an unparsable
date. -/
def c7rowA : RawRow :=
  ⟨2, [("Employee Email", Cell.str "alice@example.com"),
       ("Date", Cell.str "2024-01-15"),
       ("Start Time", Cell.time (mkTime 9 0 0)),
       ("End Time", Cell.time (mkTime 17 0 0))]⟩

def c7rowBad : RawRow :=
  ⟨3, [("Employee Email", Cell.str "bob@example.com"),
       ("Date", Cell.str "not-a-date"),
       ("Start Time", Cell.time (mkTime 9 0 0)),
       ("End Time", Cell.time (mkTime 17 0 0))]⟩

def c7rowC : RawRow :=
  ⟨4, [("Employee Email", Cell.str "carol@example.com"),
       ("Date", Cell.str "2024-01-16"),
       ("Start Time", Cell.time (mkTime 22 0 0)),
       ("End Time", Cell.time (mkTime 6 0 0))]⟩

def c7entryA : RosterEntry :=
  ⟨2, "alice@example.com", Option.none, Option.none, ⟨2024, 1, 15⟩,
   mkTime 9 0 0, mkTime 17 0 0, false, false, Option.none, false, Option.none,
   false, Option.none, false, Option.none, Option.none⟩

def c7entryC : RosterEntry :=
  ⟨4, "carol@example.com", Option.none, Option.none, ⟨2024, 1, 16⟩,
   mkTime 22 0 0, mkTime 6 0 0, true, false, Option.none, false, Option.none,
   false, Option.none, false, Option.none, Option.none⟩

/-- C10 witness input: start time equal to end time. -/
def c10row : RawRow :=
  ⟨5, [("Employee Email", Cell.str "frank@example.com"),
       ("Date", Cell.str "2024-01-15"),
       ("Start Time", Cell.str "09:00"),
       ("End Time", Cell.str "09:00")]⟩

def c10entry : RosterEntry :=
  ⟨5, "frank@example.com", Option.none, Option.none, ⟨2024, 1, 15⟩,
   mkTime 9 0 0, mkTime 9 0 0, false, false, Option.none, false, Option.none,
   false, Option.none, false, Option.none, Option.none⟩

/-! ## Helper lemmas -/

theorem ws_not_noise {c : Nat} (h : isWsN c = true) : isNoiseN c = false := by
  simp only [isWsN, wsCodes] at h
  simp only [isNoiseN, noiseCodes]
  simp at h ⊢
  omega

theorem noiseSp_ws {c : Nat} (h : isWsN c = true) : noiseSp c = c := by
  unfold noiseSp
  rw [ws_not_noise h]
  simp

theorem isWsN_32 : isWsN 32 = true := by decide

theorem noiseSp_32 : noiseSp 32 = 32 := by decide

theorem noiseSp_of_not_noise {c : Nat} (hn : isNoiseN c = false) : noiseSp c = c := by
  simp [noiseSp, hn]

/-- Collapsing whitespace before mapping noise characters to spaces does
not change the result of a final whitespace collapse: the two `re.sub`
passes of `_normalize_header` can be fused.  The second conjunct handles
the mixed run states that arise in the induction. -/
theorem collapse_noise_aux (t : List Nat) :
    (∀ b, collapseAux b ((collapseAux b t).map noiseSp) = collapseAux b (t.map noiseSp))
    ∧ collapseAux true ((collapseAux false t).map noiseSp) = collapseAux true (t.map noiseSp) := by
  induction t with
  | nil => simp [collapseAux]
  | cons c cs ih =>
    obtain ⟨ih1, ih2⟩ := ih
    have hmain : ∀ b, collapseAux b ((collapseAux b (c :: cs)).map noiseSp)
        = collapseAux b ((c :: cs).map noiseSp) := by
      intro b
      cases hws : isWsN c
      · cases hn : isNoiseN c
        · have hSp : noiseSp c = c := noiseSp_of_not_noise hn
          simp only [collapseAux, hws, List.map_cons, hSp, Bool.false_eq_true, if_false]
          rw [ih1 false]
        · have hSp : noiseSp c = 32 := by simp [noiseSp, hn]
          cases b
          · simp only [collapseAux, hws, List.map_cons, hSp, Bool.false_eq_true, if_false,
              isWsN_32, if_true]
            rw [ih2]
          · simp only [collapseAux, hws, List.map_cons, hSp, Bool.false_eq_true, if_false,
              isWsN_32, if_true]
            rw [ih2]
      · have hSp : noiseSp c = c := noiseSp_ws hws
        cases b
        · simp only [collapseAux, hws, List.map_cons, hSp, if_true, Bool.false_eq_true,
            if_false, noiseSp_32, isWsN_32]
          rw [ih1 true]
        · simp only [collapseAux, hws, List.map_cons, hSp, if_true]
          rw [ih1 true]
    refine ⟨hmain, ?_⟩
    cases hws : isWsN c
    · cases hn : isNoiseN c
      · have hSp : noiseSp c = c := noiseSp_of_not_noise hn
        simp only [collapseAux, hws, List.map_cons, hSp, Bool.false_eq_true, if_false]
        rw [ih1 false]
      · have hSp : noiseSp c = 32 := by simp [noiseSp, hn]
        simp only [collapseAux, hws, List.map_cons, hSp, Bool.false_eq_true, if_false,
          isWsN_32, if_true]
        rw [ih2]
    · have hSp : noiseSp c = c := noiseSp_ws hws
      simp only [collapseAux, hws, List.map_cons, hSp, if_true, Bool.false_eq_true, if_false,
        noiseSp_32, isWsN_32]
      rw [ih1 true]

/-- `_normalize_header` equals trimming the claim-side key: the full
pipeline is the per-character fold followed by one whitespace collapse and
a strip. -/
theorem normalizeHeaderL_eq_key (l : List Nat) :
    normalizeHeaderL l = trimWsN (headerKeyL l) := by
  unfold normalizeHeaderL headerKeyL collapseWs
  cases l with
  | nil => simp [collapseAux, trimWsN]
  | cons c cs =>
    simp only [reduceCtorEq, if_false]
    rw [(collapse_noise_aux (List.map lowerN (List.map foldW (c :: cs)))).1 false]
    simp [List.map_map, Function.comp_def]

theorem except_bind_ok {ε α β : Type} {a : Except ε α} {f : α → Except ε β} {b : β} :
    (a >>= f) = Except.ok b ↔ ∃ x, a = Except.ok x ∧ f x = Except.ok b := by
  cases a <;> simp [Bind.bind, Except.bind]

/-- Structure of every successful row parse: the entry's `is_overnight` is
the `end < start` comparison of its own times, the entry records the row
position, and all warnings are break-duration warnings. -/
theorem parse_roster_row_ok {row : RawRow} {e : RosterEntry} {ws : List ParseIssue}
    (h : parse_roster_row row = Except.ok (e, ws)) :
    e.is_overnight = Time.ltB e.end_time e.start_time
    ∧ e.excel_row = row.rowNum
    ∧ (∀ w ∈ ws, w.code = IssueCode.MEAL_BREAK_DURATION_MISSING
        ∨ w.code = IssueCode.REST_BREAKS_DURATION_MISSING) := by
  unfold parse_roster_row at h
  simp only [except_bind_ok, Except.ok.injEq, Prod.mk.injEq] at h
  obtain ⟨em, hem, d, hd, st, hst, en, hen, ml, hml, rs, hrs, hEntry, hWs⟩ := h
  subst hEntry
  subst hWs
  refine ⟨rfl, rfl, ?_⟩
  intro w hw
  unfold breakWarnings at hw
  rcases List.mem_append.mp hw with hw1 | hw1
  · revert hw1
    split
    · intro hw1
      simp only [List.mem_singleton] at hw1
      subst hw1
      left
      rfl
    · intro hw1
      simp at hw1
  · revert hw1
    split
    · intro hw1
      simp only [List.mem_singleton] at hw1
      subst hw1
      right
      rfl
    · intro hw1
      simp at hw1

/-- A row whose email coerces and validates but whose date cell fails date
coercion is rejected with exactly the `INVALID_DATE` issue at its own row
position. -/
theorem parse_roster_row_invalid_date {row : RawRow}
    (hemail : ∃ em, get_string (dictGet (normalizeRow row.cells) "employee_email") = some em
        ∧ validEmail em = true)
    (hdate : ∃ derr, parse_date (dictGet (normalizeRow row.cells) "date") = Except.error derr) :
    parse_roster_row row = Except.error (RowErr.issue
      ⟨Severity.error, IssueCode.INVALID_DATE, row.rowNum, some "date"⟩) := by
  obtain ⟨em, hem, hv⟩ := hemail
  obtain ⟨derr, hd⟩ := hdate
  unfold parse_roster_row requireEmail requireDate
  simp only [hem, hv, hd, if_true, Bind.bind, Except.bind]

theorem process_rows_append (xs ys : List RawRow) :
    process_rows (xs ++ ys) =
      ((process_rows xs).1 ++ (process_rows ys).1,
       (process_rows xs).2 ++ (process_rows ys).2) := by
  induction xs with
  | nil => simp [process_rows]
  | cons r rs ih =>
    simp only [List.cons_append, process_rows]
    cases hp : parse_roster_row r with
    | ok p => simp [hp, ih]
    | error err => cases err <;> simp [hp, ih]

theorem process_rows_all_ok {rs : List RawRow}
    (h : ∀ r ∈ rs, ∃ p, parse_roster_row r = Except.ok p) :
    (process_rows rs).1 = rs.filterMap (fun r => okEntry (parse_roster_row r))
    ∧ (process_rows rs).1.length = rs.length
    ∧ (∀ i ∈ (process_rows rs).2,
        i.code = IssueCode.MEAL_BREAK_DURATION_MISSING
        ∨ i.code = IssueCode.REST_BREAKS_DURATION_MISSING) := by
  induction rs with
  | nil => simp [process_rows]
  | cons r rs ih =>
    obtain ⟨p, hp⟩ := h r (List.mem_cons_self r rs)
    obtain ⟨ih1, ih2, ih3⟩ := ih (fun x hx => h x (List.mem_cons_of_mem r hx))
    refine ⟨?_, ?_, ?_⟩
    · simp [process_rows, hp, okEntry, ih1]
    · simp [process_rows, hp, ih2]
    · intro i hi
      simp only [process_rows, hp] at hi
      rcases List.mem_append.mp hi with h1 | h1
      · obtain ⟨hov, hrow, hwarn⟩ := @parse_roster_row_ok r p.1 p.2 (by rw [hp])
        exact hwarn i h1
      · exact ih3 i h1

theorem Time.toSecs_lt_86400 (t : Time) : t.toSecs < 86400 := by
  unfold Time.toSecs
  have h1 := t.hour.isLt
  have h2 := t.minute.isLt
  have h3 := t.second.isLt
  omega

theorem ratTrunc_eq_floor {x : ℚ} (hx : 0 ≤ x) : ratTrunc x = ⌊x⌋ := by
  have hnum : 0 ≤ x.num := Rat.num_nonneg.mpr hx
  unfold ratTrunc
  rw [Rat.floor_def]
  exact Int.tdiv_eq_ediv hnum (Int.ofNat_nonneg _)

/-! ## Claim theorems -/

/-- C1 (counterexample): the claim "duration_hours and net_hours are
non-negative for every parser-constructed entry" is false as stated: the
parser accepts a one-hour shift with a 120-minute meal break without any
issue or warning, and that entry's net_hours is −1.00 (netCents = −100). -/
theorem c1_net_hours_counterexample :
    parse_roster_row c1row = Except.ok (c1entry, []) ∧ netCents c1entry < 0 := by
  constructor
  · decide
  · have h : netCents c1entry = -100 := by with_unfolding_all rfl
    rw [h]
    norm_num

/-- C1 (amended): for every entry constructed by the roster row parser,
duration_hours is non-negative, and net_hours is non-negative provided the
recorded break minutes do not exceed the shift: `5 * breakMinutes ≤
3 * durationCents` is exactly `breakMinutes / 60 ≤ durationCents / 100`
(break hours ≤ duration hours).  The code never validates break durations
against the shift length, so without that proviso net_hours can be
negative. -/
theorem c1_nonneg_amended {row : RawRow} {e : RosterEntry} {ws : List ParseIssue}
    (h : parse_roster_row row = Except.ok (e, ws)) :
    0 ≤ durationCents e
    ∧ (5 * breakMinutes e ≤ 3 * durationCents e → 0 ≤ netCents e) := by
  obtain ⟨hov, -, -⟩ := parse_roster_row_ok h
  unfold Time.ltB at hov
  have hsecs : 0 ≤ durationSeconds e := by
    unfold durationSeconds
    cases hb : e.is_overnight
    · rw [hb] at hov
      have hnlt : ¬ (e.end_time.toSecs < e.start_time.toSecs) := by
        intro hc
        simp [hc] at hov
      simp only [Bool.false_eq_true, if_false]
      omega
    · rw [hb] at hov
      have hstlt := Time.toSecs_lt_86400 e.start_time
      simp only [if_true]
      omega
  have hD : 0 ≤ durationCents e := by
    unfold durationCents quantize2
    apply rndHEQ_nonneg
    have hc : (0:ℚ) ≤ (durationSeconds e : ℚ) := by exact_mod_cast hsecs
    positivity
  refine ⟨hD, ?_⟩
  intro hbk
  unfold netCents quantize2
  apply rndHEQ_nonneg
  have hcast : (5 * (breakMinutes e : ℚ)) ≤ 3 * (durationCents e : ℚ) := by exact_mod_cast hbk
  have hv : (durationCents e : ℚ)/100 - (breakMinutes e : ℚ)/60
      = (3 * (durationCents e : ℚ) - 5 * (breakMinutes e : ℚ))/300 := by ring
  rw [hv]
  have h300 : 0 ≤ (3 * (durationCents e : ℚ) - 5 * (breakMinutes e : ℚ))/300 := by
    apply div_nonneg
    · linarith
    · norm_num
  linarith

theorem c1_nonneg_amended_witness :
    parse_roster_row c1wrow = Except.ok (c1wentry, [])
    ∧ 0 ≤ durationCents c1wentry ∧ 0 ≤ netCents c1wentry :=
  ⟨by decide,
   (@c1_nonneg_amended c1wrow c1wentry [] (by decide)).1,
   (@c1_nonneg_amended c1wrow c1wentry [] (by decide)).2 (by with_unfolding_all decide)⟩

/-- C2: for every entry constructed by the roster row parser,
`is_overnight` holds exactly when the end clock time is earlier than the
start clock time, and `duration_hours` (in hundredths) is the two-decimal
quantization of `(24:00 − start) + end` hours when overnight, else of
`end − start` hours. -/
theorem c2_overnight_duration {row : RawRow} {e : RosterEntry} {ws : List ParseIssue}
    (h : parse_roster_row row = Except.ok (e, ws)) :
    ((e.is_overnight = true) ↔ e.end_time.toSecs < e.start_time.toSecs)
    ∧ durationCents e =
        (if e.is_overnight then
          quantize2 (((86400 - (e.start_time.toSecs : ℤ) + (e.end_time.toSecs : ℤ) : ℤ) : ℚ) / 3600)
        else
          quantize2 ((((e.end_time.toSecs : ℤ) - (e.start_time.toSecs : ℤ) : ℤ) : ℚ) / 3600)) := by
  obtain ⟨hov, -, -⟩ := parse_roster_row_ok h
  constructor
  · rw [hov]
    simp [Time.ltB]
  · unfold durationCents durationSeconds
    cases hb : e.is_overnight <;> simp [hb]

theorem c2_overnight_duration_witness :
    parse_roster_row c2row = Except.ok (c2entry, [])
    ∧ ((c2entry.is_overnight = true) ↔ c2entry.end_time.toSecs < c2entry.start_time.toSecs) :=
  ⟨by decide, (@c2_overnight_duration c2row c2entry [] (by decide)).1⟩

/-- C3: for every RosterEntry, net_hours (in hundredths) is the
two-decimal quantization of duration_hours minus the break minutes (absent
treated as zero) divided by 60; and that quantization really is correct
rounding: the resulting value is within half a cent of the exact
difference. -/
theorem c3_net_hours_formula (e : RosterEntry) :
    netCents e = quantize2 ((durationCents e : ℚ) / 100 -
        ((e.meal_break_duration.getD 0 + e.rest_breaks_duration.getD 0 : ℤ) : ℚ) / 60)
    ∧ |(netCents e : ℚ) / 100 -
        ((durationCents e : ℚ) / 100 - (breakMinutes e : ℚ) / 60)| ≤ 1 / 200 := by
  constructor
  · rfl
  · have h := rndHEQ_close (100 * ((durationCents e : ℚ)/100 - (breakMinutes e : ℚ)/60))
    unfold netCents quantize2
    have h2 : ((rndHEQ (100 * ((durationCents e : ℚ)/100 - (breakMinutes e : ℚ)/60)) : ℚ))/100
          - ((durationCents e : ℚ)/100 - (breakMinutes e : ℚ)/60)
        = ((rndHEQ (100 * ((durationCents e : ℚ)/100 - (breakMinutes e : ℚ)/60)) : ℚ)
            - 100 * ((durationCents e : ℚ)/100 - (breakMinutes e : ℚ)/60))/100 := by
      ring
    rw [h2, abs_div]
    have h3 : |(100:ℚ)| = 100 := by norm_num
    rw [h3]
    linarith [h]

/-- C4: every text cell whose stripped content matches the time-range
regex fails time coercion with the dedicated range error that carries the
detected text (directing the caller to separate start/end columns), not
the generic unparseable error; in particular for all four spelling
variants named by the spec. -/
theorem c4_time_range_error :
    (∀ s : String, pyStrip s ≠ "" → rangeSearch (pyStrip s).data = true →
      parse_time (Cell.str s) = Except.error (TimeErr.rangeDetected (pyStrip s)))
    ∧ parse_time (Cell.str "9:00-17:00") = Except.error (TimeErr.rangeDetected "9:00-17:00")
    ∧ parse_time (Cell.str "9:00~17:00") = Except.error (TimeErr.rangeDetected "9:00~17:00")
    ∧ parse_time (Cell.str "9:00 to 17:00") = Except.error (TimeErr.rangeDetected "9:00 to 17:00")
    ∧ parse_time (Cell.str "9-17") = Except.error (TimeErr.rangeDetected "9-17") := by
  refine ⟨?_, by decide, by decide, by decide, by decide⟩
  intro s h1 h2
  simp [parse_time, parse_time_str, h1, h2]

theorem c4_time_range_error_witness :
    pyStrip "8:30 – 17:30" ≠ "" ∧ rangeSearch (pyStrip "8:30 – 17:30").data = true
    ∧ parse_time (Cell.str "8:30 – 17:30")
        = Except.error (TimeErr.rangeDetected "8:30 – 17:30") :=
  ⟨by decide, by decide, (c4_time_range_error).1 "8:30 – 17:30" (by decide) (by decide)⟩

/-- C5 (counterexample): the claim says a numeric cell is "floored to
whole seconds", but `int(value * 86400)` truncates toward zero: at the
negative fraction −1/100000 (≈ −0.864 seconds) the code produces 00:00:00
while flooring would produce 23:59:59. -/
theorem c5_floor_counterexample :
    parse_time (Cell.num (-(1/100000))) = Except.ok (some (mkTime 0 0 0))
    ∧ floorFracTime (-(1/100000)) = mkTime 23 59 59
    ∧ mkTime 0 0 0 ≠ mkTime 23 59 59 :=
  ⟨by with_unfolding_all rfl, by with_unfolding_all rfl, by decide⟩

/-- C5 (amended): every numeric cell is interpreted as a fraction of a
24-hour day, truncated toward zero to whole seconds (which coincides with
flooring for every non-negative value), hour taken modulo 24; in
particular 0.5 coerces to 12:00:00 and 0.25 to 06:00:00. -/
theorem c5_fraction_of_day_amended : ∀ q : ℚ,
    parse_time (Cell.num q) = Except.ok (some (excelFracTime q))
    ∧ (0 ≤ q → excelFracTime q = floorFracTime q)
    ∧ excelFracTime (1/2) = mkTime 12 0 0
    ∧ excelFracTime (1/4) = mkTime 6 0 0 := by
  intro q
  refine ⟨rfl, ?_, ?_, ?_⟩
  · intro hq
    unfold excelFracTime floorFracTime
    have h : ratTrunc (q * 86400) = ⌊q * 86400⌋ := ratTrunc_eq_floor (by positivity)
    simp only [h]
  · with_unfolding_all rfl
  · with_unfolding_all rfl

theorem c5_fraction_of_day_amended_witness :
    parse_time (Cell.num (1/2)) = Except.ok (some (excelFracTime (1/2)))
    ∧ excelFracTime (1/2) = floorFracTime (1/2) :=
  ⟨(c5_fraction_of_day_amended (1/2)).1,
   (c5_fraction_of_day_amended (1/2)).2.1 (by norm_num)⟩

/-- C6: text date coercion tries the fixed ordered format list and returns
the first successful match (`tryDateFormats` is `findSome?` over the list
Y-M-D, D/M/Y, M/D/Y, D-M-Y, Y/M/D, D.M.Y): when the ISO format fails and
D/M/Y succeeds, D/M/Y's answer is returned even though M/D/Y may also
match — so the ambiguous "01/02/2024" parses day-first to 2024-02-01 —
no format matching yields the failure carrying the text, and unsupported
cell types (numbers, booleans) fail with the type error. -/
theorem c6_date_format_order :
    (∀ s : String, pyStrip s ≠ "" →
      parse_date (Cell.str s) =
        (match tryDateFormats (pyStrip s).data with
         | some d => Except.ok (some d)
         | Option.none => Except.error (DateErr.unparseable (pyStrip s))))
    ∧ (∀ l : List Char, ∀ d : Date, dateFmt DOrder.ymd '-' l = Option.none →
        dateFmt DOrder.dmy '/' l = some d → tryDateFormats l = some d)
    ∧ parse_date (Cell.str "01/02/2024") = Except.ok (some ⟨2024, 2, 1⟩)
    ∧ dateFmt DOrder.dmy '/' "01/02/2024".data = some ⟨2024, 2, 1⟩
    ∧ dateFmt DOrder.mdy '/' "01/02/2024".data = some ⟨2024, 1, 2⟩
    ∧ (∀ q : ℚ, parse_date (Cell.num q) = Except.error DateErr.invalidType)
    ∧ (∀ n : ℤ, parse_date (Cell.int n) = Except.error DateErr.invalidType)
    ∧ (∀ b : Bool, parse_date (Cell.bool b) = Except.error DateErr.invalidType) := by
  refine ⟨?_, ?_, by decide, by decide, by decide, ?_, ?_, ?_⟩
  · intro s h1
    simp [parse_date, h1]
  · intro l d h1 h2
    simp [tryDateFormats, dateFormats, List.findSome?_cons, h1, h2]
  · intro q
    rfl
  · intro n
    rfl
  · intro b
    rfl

theorem c6_date_format_order_witness :
    pyStrip "15.01.2024" ≠ ""
    ∧ parse_date (Cell.str "15.01.2024") =
        (match tryDateFormats (pyStrip "15.01.2024").data with
         | some d => Except.ok (some d)
         | Option.none => Except.error (DateErr.unparseable (pyStrip "15.01.2024"))) :=
  ⟨by decide, (c6_date_format_order).1 "15.01.2024" (by decide)⟩

/-- C7: a batch with all required columns whose rows all parse except one
row, whose email is valid but whose date cell fails date coercion, yields
exactly N−1 accepted entries; the issues contain exactly one INVALID_DATE
issue, carrying that row's original position; and the accepted entries are
exactly the other rows' individually-parsed entries, in order. -/
theorem c7_single_invalid_date
    (pre post : List RawRow) (bad : RawRow)
    (hval : headersValid (pre ++ bad :: post) = true)
    (hok : ∀ r ∈ pre ++ post, ∃ p, parse_roster_row r = Except.ok p)
    (hbademail : ∃ em, get_string (dictGet (normalizeRow bad.cells) "employee_email") = some em
        ∧ validEmail em = true)
    (hbaddate : ∃ derr, parse_date (dictGet (normalizeRow bad.cells) "date") = Except.error derr) :
    (parse_roster_excel (pre ++ bad :: post)).1.length = (pre ++ bad :: post).length - 1
    ∧ (parse_roster_excel (pre ++ bad :: post)).2.filter
        (fun j => j.code == IssueCode.INVALID_DATE)
        = [⟨Severity.error, IssueCode.INVALID_DATE, bad.rowNum, some "date"⟩]
    ∧ (parse_roster_excel (pre ++ bad :: post)).1
        = (pre ++ post).filterMap (fun r => okEntry (parse_roster_row r)) := by
  have hbad := parse_roster_row_invalid_date hbademail hbaddate
  have hokpre : ∀ r ∈ pre, ∃ p, parse_roster_row r = Except.ok p :=
    fun r hr => hok r (List.mem_append_left _ hr)
  have hokpost : ∀ r ∈ post, ∃ p, parse_roster_row r = Except.ok p :=
    fun r hr => hok r (List.mem_append_right _ hr)
  obtain ⟨hpre1, hpre2, hpre3⟩ := process_rows_all_ok hokpre
  obtain ⟨hpost1, hpost2, hpost3⟩ := process_rows_all_ok hokpost
  have hexcel : parse_roster_excel (pre ++ bad :: post) = process_rows (pre ++ bad :: post) := by
    unfold parse_roster_excel
    rw [if_neg, if_neg]
    · rw [hval]
      simp
    · simp
  have hcons : process_rows (bad :: post) =
      ((process_rows post).1,
       (⟨Severity.error, IssueCode.INVALID_DATE, bad.rowNum, some "date"⟩ : ParseIssue)
         :: (process_rows post).2) := by
    simp [process_rows, hbad]
  have hall : process_rows (pre ++ bad :: post) =
      ((process_rows pre).1 ++ (process_rows post).1,
       (process_rows pre).2 ++
         (⟨Severity.error, IssueCode.INVALID_DATE, bad.rowNum, some "date"⟩ : ParseIssue)
           :: (process_rows post).2) := by
    rw [process_rows_append pre (bad :: post), hcons]
  refine ⟨?_, ?_, ?_⟩
  · rw [hexcel, hall]
    simp only [List.length_append, List.length_cons, hpre2, hpost2]
    omega
  · rw [hexcel, hall]
    simp only [List.filter_append, List.filter_cons]
    have hfpre : (process_rows pre).2.filter (fun j => j.code == IssueCode.INVALID_DATE) = [] := by
      rw [List.filter_eq_nil_iff]
      intro i hi
      rcases hpre3 i hi with hc | hc <;> simp [hc]
    have hfpost : (process_rows post).2.filter (fun j => j.code == IssueCode.INVALID_DATE) = [] := by
      rw [List.filter_eq_nil_iff]
      intro i hi
      rcases hpost3 i hi with hc | hc <;> simp [hc]
    rw [hfpre, hfpost]
    simp
  · rw [hexcel, hall]
    rw [hpre1, hpost1, List.filterMap_append]

theorem c7_single_invalid_date_witness :
    (parse_roster_excel ([c7rowA] ++ c7rowBad :: [c7rowC])).1.length
        = ([c7rowA] ++ c7rowBad :: [c7rowC]).length - 1
    ∧ (parse_roster_excel ([c7rowA] ++ c7rowBad :: [c7rowC])).2.filter
        (fun j => j.code == IssueCode.INVALID_DATE)
        = [⟨Severity.error, IssueCode.INVALID_DATE, c7rowBad.rowNum, some "date"⟩]
    ∧ (parse_roster_excel ([c7rowA] ++ c7rowBad :: [c7rowC])).1
        = ([c7rowA] ++ [c7rowC]).filterMap (fun r => okEntry (parse_roster_row r)) :=
  c7_single_invalid_date [c7rowA] [c7rowC] c7rowBad
    (by decide)
    (by
      intro r hr
      simp only [List.cons_append, List.nil_append, List.mem_cons, List.not_mem_nil,
        or_false, List.mem_singleton] at hr
      rcases hr with h1 | h1
      · exact ⟨(c7entryA, []), by rw [h1]; decide⟩
      · exact ⟨(c7entryC, []), by rw [h1]; decide⟩)
    ⟨"bob@example.com", by decide, by decide⟩
    ⟨DateErr.unparseable "not-a-date", by decide⟩

/-- C8 (code bug): `_parse_int` is documented to return `None` for invalid
input and the spec says integer coercion never fails, but on text whose
`float(...)` is infinite (`"inf"`, `"Infinity"`, `"-inf"`) the code's
`int(float(value))` raises `OverflowError`, which the surrounding `except
ValueError` does not catch — modelled here as the `Except.error` outcome.
All other inputs behave as claimed: NaN and unparsable text fall back to
absent, reals and numeric text truncate toward zero. -/
theorem c8_parse_int_overflow_bug :
    parse_int (Cell.str "inf") = Except.error ()
    ∧ parse_int (Cell.str "Infinity") = Except.error ()
    ∧ parse_int (Cell.str "-inf") = Except.error ()
    ∧ parse_int (Cell.str "nan") = Except.ok Option.none
    ∧ parse_int (Cell.str "abc") = Except.ok Option.none
    ∧ parse_int (Cell.str "30.5") = Except.ok (some 30)
    ∧ parse_int (Cell.str "-30.5") = Except.ok (some (-30))
    ∧ parse_int (Cell.int 42) = Except.ok (some 42)
    ∧ parse_int (Cell.num (61/2)) = Except.ok (some 30)
    ∧ parse_int Cell.null = Except.ok Option.none :=
  ⟨by with_unfolding_all rfl, by with_unfolding_all rfl, by with_unfolding_all rfl,
   by with_unfolding_all rfl, by with_unfolding_all rfl, by with_unfolding_all rfl,
   by with_unfolding_all rfl, by with_unfolding_all rfl, by with_unfolding_all rfl,
   by with_unfolding_all rfl⟩

/-- C9: header resolution is insensitive to letter case, whitespace runs,
character width and the noise punctuation (which the normalizer treats as
whitespace): any two raw headers with the same per-character fold-and-
collapse key resolve to the same canonical field, and the three example
spellings all resolve to `employee_email`. -/
theorem c9_header_insensitivity :
    (∀ s1 s2 : String, headerKey s1 = headerKey s2 → resolveKey s1 = resolveKey s2)
    ∧ aliasLookup (normalize_header "Employee  Email") = some "employee_email"
    ∧ aliasLookup (normalize_header "employee_email") = some "employee_email"
    ∧ aliasLookup (normalize_header "EMPLOYEE EMAIL") = some "employee_email" := by
  refine ⟨?_, by decide, by decide, by decide⟩
  intro s1 s2 h
  have hn : normalize_header s1 = normalize_header s2 := by
    unfold normalize_header
    rw [normalizeHeaderL_eq_key, normalizeHeaderL_eq_key]
    unfold headerKey at h
    rw [h]
  unfold resolveKey
  rw [hn]

theorem c9_header_insensitivity_witness :
    headerKey "Employee  Email" = headerKey "employee_email"
    ∧ resolveKey "Employee  Email" = resolveKey "employee_email" :=
  ⟨by decide, (c9_header_insensitivity).1 "Employee  Email" "employee_email" (by decide)⟩

/-- C10: a parser-constructed entry whose start time equals its end time
has `is_overnight = false` and `duration_hours = 0.00` — equal clock times
denote an empty shift, never a 24-hour one. -/
theorem c10_equal_times_zero_duration {row : RawRow} {e : RosterEntry} {ws : List ParseIssue}
    (h : parse_roster_row row = Except.ok (e, ws)) (heq : e.start_time = e.end_time) :
    e.is_overnight = false ∧ durationCents e = 0 := by
  obtain ⟨hov, -, -⟩ := parse_roster_row_ok h
  have hovf : e.is_overnight = false := by
    rw [hov, heq]
    simp [Time.ltB]
  refine ⟨hovf, ?_⟩
  have hds : durationSeconds e = 0 := by
    unfold durationSeconds
    rw [hovf, heq]
    simp
  unfold durationCents
  rw [hds]
  have h0 : ((0 : ℤ) : ℚ) / 3600 = ((0 : ℤ) : ℚ) := by norm_num
  rw [h0, quantize2]
  have h1 : (100 : ℚ) * ((0 : ℤ) : ℚ) = ((0 : ℤ) : ℚ) := by norm_num
  rw [h1, rndHEQ_intCast]

theorem c10_equal_times_zero_duration_witness :
    parse_roster_row c10row = Except.ok (c10entry, [])
    ∧ c10entry.is_overnight = false ∧ durationCents c10entry = 0 :=
  ⟨by decide,
   (@c10_equal_times_zero_duration c10row c10entry [] (by decide) (by decide)).1,
   (@c10_equal_times_zero_duration c10row c10entry [] (by decide) (by decide)).2⟩

end FairWorkly
